import Mathlib

set_option autoImplicit false

/-!
Shallow embedding of the oxigraph RocksDB C bridge layer
(`src/oxrocksdb-sys/api/c.cc` / `src/oxrocksdb-sys/api/c.h`, and the
content-identical older copy `src/rocksdb-sys/api/c.cc`).

Modelling conventions:
* Native memory is a `Heap`: a fresh-address counter plus an association
  list of allocated blocks (address, byte content).  `new` is `Heap.alloc`,
  `delete` is `Heap.free`.
* The engine (`rocksdb::DB` / `TransactionDB` / `Transaction` methods) is an
  external collaborator: each bridge function receives the engine call's
  outcome (`Status`, and the produced value / handle list) as a parameter,
  exactly as the C code receives it from the call it forwards to.
* Engine `Status` is a record of code, subcode, severity and the byte string
  `ToString()` would produce; the enum values mirror
  `rocksdb_status_code_t`, `rocksdb_status_subcode_t` and
  `rocksdb_status_severity_t` of `api/c.h`, which are value-aligned with the
  engine's own enums (so the `static_cast`s are value preserving).
* A `rocksdb_status_t*` output parameter is a cell `Option rocksdb_status`:
  `Option.none` models a cell the call has not written; writing stores the
  whole record, as `SaveStatus` does.
-/

/-- `rocksdb_status_code_t` of `api/c.h` (values 0..15, aligned with
`rocksdb::Status::Code`). -/
inductive StatusCode
  | ok
  | notFound
  | corruption
  | notSupported
  | invalidArgument
  | ioError
  | mergeInProgress
  | incomplete
  | shutdownInProgress
  | timedOut
  | aborted
  | busy
  | expired
  | tryAgain
  | compactionTooLarge
  | columnFamilyDropped
  deriving DecidableEq

/-- `rocksdb_status_subcode_t` of `api/c.h` (values 0..14, aligned with
`rocksdb::Status::SubCode`). -/
inductive StatusSubcode
  | noSub
  | mutexTimeout
  | lockTimeout
  | lockLimit
  | noSpace
  | deadlock
  | staleFile
  | memoryLimit
  | spaceLimit
  | pathNotFound
  | mergeOperandsInsufficientCapacity
  | manualCompactionPaused
  | overwritten
  | txnNotPrepared
  | ioFenced
  deriving DecidableEq

/-- `rocksdb_status_severity_t` of `api/c.h` (values 0..4, aligned with
`rocksdb::Status::Severity`). -/
inductive StatusSeverity
  | noError
  | softError
  | hardError
  | fatalError
  | unrecoverableError
  deriving DecidableEq

/-- An engine outcome `rocksdb::Status`: code, subcode, severity, and the
bytes its `ToString()` yields (the engine builds that string; we carry it
abstractly). -/
structure Status where
  code : StatusCode
  subcode : StatusSubcode
  severity : StatusSeverity
  msg : List Nat
  deriving DecidableEq

/-- `Status::ok()`: the code is `kOk`. -/
def Status.ok (s : Status) : Bool := s.code = StatusCode.ok

/-- `Status::IsNotFound()`: the code is `kNotFound`. -/
def Status.IsNotFound (s : Status) : Bool := s.code = StatusCode.notFound

/-- Native memory: a fresh-address supply and the allocated blocks
(address, byte content). -/
structure Heap where
  next : Nat
  blocks : List (Nat × List Nat)
  deriving DecidableEq

/-- Addresses currently allocated. -/
def Heap.addrs (h : Heap) : List Nat := h.blocks.map Prod.fst

/-- Heap well-formedness: every allocated address is below the fresh-address
supply, so `alloc` really returns a fresh address. -/
def Heap.wf (h : Heap) : Prop := ∀ a ∈ h.addrs, a < h.next

/-- `new`: allocate a block, returning its (fresh) address. -/
def Heap.alloc (h : Heap) (bytes : List Nat) : Nat × Heap :=
  (h.next, ⟨h.next + 1, (h.next, bytes) :: h.blocks⟩)

/-- `delete`: release the block at address `a`. -/
def Heap.free (h : Heap) (a : Nat) : Heap :=
  ⟨h.next, h.blocks.filter (fun p => p.1 != a)⟩

/-- Read the block at address `a`. -/
def Heap.lookup (h : Heap) (a : Nat) : Option (List Nat) :=
  (h.blocks.find? (fun p => p.1 == a)).map Prod.snd

/-- `rocksdb_status_t` of `api/c.h`: code, subcode, severity, and the
`string` field — null (`Option.none`) or a pointer to an owned,
NUL-terminated message block. -/
structure rocksdb_status where
  code : StatusCode
  subcode : StatusSubcode
  severity : StatusSeverity
  string : Option Nat
  deriving DecidableEq

/-- `SaveStatus` (`src/oxrocksdb-sys/api/c.cc` lines 96-109, and the same
function in `src/rocksdb-sys/api/c.cc` lines 4-17): writes code, subcode and
severity from the source outcome; on `ok()` sets the message pointer to
null, otherwise allocates `msg.size() + 1` bytes and `memcpy`s the message
plus its NUL terminator.  Returns `!source.ok()`.  The result is the record
written to `*target`, the heap after the allocation, and the returned
boolean. -/
def SaveStatus (h : Heap) (source : Status) : rocksdb_status × Heap × Bool :=
  if source.ok then
    ({ code := source.code, subcode := source.subcode,
       severity := source.severity, string := Option.none }, h, false)
  else
    let msg := source.msg
    let (a, h1) := h.alloc (msg ++ [0])
    ({ code := source.code, subcode := source.subcode,
       severity := source.severity, string := some a }, h1, true)

/-- Events a bridge call performs, in order, on native resources. -/
inductive Ev
  | allocSlice (a : Nat)
  | engineGet
  | freeSlice (a : Nat)
  | saveStatus
  deriving DecidableEq

/-- Outcome of a pinned-read bridge call: the returned
`rocksdb_pinnableslice_t*` (null = `Option.none`), the status output cell
after the call, the heap after the call, and the event trace. -/
structure GetResult where
  ret : Option Nat
  cell : Option rocksdb_status
  heap : Heap
  events : List Ev
  deriving DecidableEq

/-- `rocksdb_get_pinned_cf_with_status` (`src/oxrocksdb-sys/api/c.cc` lines
113-128): `new`s a pinnable-slice wrapper, forwards to `DB::Get` (outcome
`s`, value bytes `val` written into the wrapper), and on a non-ok outcome
deletes the wrapper, saves the status only when the outcome is not
`NotFound`, and returns null. -/
def rocksdb_get_pinned_cf_with_status (h : Heap) (cell : Option rocksdb_status)
    (s : Status) (val : List Nat) : GetResult :=
  let (v, h1) := h.alloc val
  if ! s.ok then
    let h2 := h1.free v
    if ! s.IsNotFound then
      let (t, h3, _) := SaveStatus h2 s
      ⟨Option.none, some t, h3, [Ev.allocSlice v, Ev.engineGet, Ev.freeSlice v, Ev.saveStatus]⟩
    else
      ⟨Option.none, cell, h2, [Ev.allocSlice v, Ev.engineGet, Ev.freeSlice v]⟩
  else
    ⟨some v, cell, h1, [Ev.allocSlice v, Ev.engineGet]⟩

/-- `rocksdb_transactiondb_get_pinned_cf_with_status`
(`src/oxrocksdb-sys/api/c.cc` lines 248-263; also `src/rocksdb-sys/api/c.cc`
lines 54-69): same shape as the store get, forwarding to
`TransactionDB::Get`. -/
def rocksdb_transactiondb_get_pinned_cf_with_status (h : Heap)
    (cell : Option rocksdb_status) (s : Status) (val : List Nat) : GetResult :=
  let (v, h1) := h.alloc val
  if ! s.ok then
    let h2 := h1.free v
    if ! s.IsNotFound then
      let (t, h3, _) := SaveStatus h2 s
      ⟨Option.none, some t, h3, [Ev.allocSlice v, Ev.engineGet, Ev.freeSlice v, Ev.saveStatus]⟩
    else
      ⟨Option.none, cell, h2, [Ev.allocSlice v, Ev.engineGet, Ev.freeSlice v]⟩
  else
    ⟨some v, cell, h1, [Ev.allocSlice v, Ev.engineGet]⟩

/-- `rocksdb_transaction_get_pinned_cf_with_status`
(`src/oxrocksdb-sys/api/c.cc` lines 340-355; also `src/rocksdb-sys/api/c.cc`
lines 141-156): same shape, forwarding to `Transaction::Get`. -/
def rocksdb_transaction_get_pinned_cf_with_status (h : Heap)
    (cell : Option rocksdb_status) (s : Status) (val : List Nat) : GetResult :=
  let (v, h1) := h.alloc val
  if ! s.ok then
    let h2 := h1.free v
    if ! s.IsNotFound then
      let (t, h3, _) := SaveStatus h2 s
      ⟨Option.none, some t, h3, [Ev.allocSlice v, Ev.engineGet, Ev.freeSlice v, Ev.saveStatus]⟩
    else
      ⟨Option.none, cell, h2, [Ev.allocSlice v, Ev.engineGet, Ev.freeSlice v]⟩
  else
    ⟨some v, cell, h1, [Ev.allocSlice v, Ev.engineGet]⟩

/-- `rocksdb_transaction_get_for_update_pinned_cf_with_status`
(`src/oxrocksdb-sys/api/c.cc` lines 357-373; also `src/rocksdb-sys/api/c.cc`
lines 158-173): same shape, forwarding to `Transaction::GetForUpdate`. -/
def rocksdb_transaction_get_for_update_pinned_cf_with_status (h : Heap)
    (cell : Option rocksdb_status) (s : Status) (val : List Nat) : GetResult :=
  let (v, h1) := h.alloc val
  if ! s.ok then
    let h2 := h1.free v
    if ! s.IsNotFound then
      let (t, h3, _) := SaveStatus h2 s
      ⟨Option.none, some t, h3, [Ev.allocSlice v, Ev.engineGet, Ev.freeSlice v, Ev.saveStatus]⟩
    else
      ⟨Option.none, cell, h2, [Ev.allocSlice v, Ev.engineGet, Ev.freeSlice v]⟩
  else
    ⟨some v, cell, h1, [Ev.allocSlice v, Ev.engineGet]⟩

example :
    (rocksdb_get_pinned_cf_with_status ⟨0, []⟩ Option.none
      ⟨StatusCode.notFound, StatusSubcode.noSub, StatusSeverity.noError, []⟩ []).ret
      = Option.none := by decide

/-- Outcome of a void bridge call that unconditionally routes its engine
outcome through `SaveStatus`: the status cell after the call and the heap. -/
def saveStatusCall (h : Heap) (s : Status) : Option rocksdb_status × Heap :=
  let (t, h1, _) := SaveStatus h s
  (some t, h1)

/-- `rocksdb_try_catch_up_with_primary_with_status`
(`src/oxrocksdb-sys/api/c.cc` lines 163-166): `SaveStatus(statusptr,
db->rep->TryCatchUpWithPrimary())`.  Arguments that only flow to the engine
are elided; `s` is the engine outcome. -/
def rocksdb_try_catch_up_with_primary_with_status (h : Heap) (s : Status)
    (_cell : Option rocksdb_status) : Option rocksdb_status × Heap :=
  saveStatusCall h s

/-- `rocksdb_transactiondb_put_cf_with_status` (`src/oxrocksdb-sys/api/c.cc`
lines 265-273): `SaveStatus(statusptr, txn_db->rep->Put(...))`. -/
def rocksdb_transactiondb_put_cf_with_status (h : Heap) (s : Status)
    (_cell : Option rocksdb_status) : Option rocksdb_status × Heap :=
  saveStatusCall h s

/-- `rocksdb_transactiondb_flush_cfs_with_status`
(`src/oxrocksdb-sys/api/c.cc` lines 275-284): marshals the column-family
handle array and calls `SaveStatus(statusptr, db->rep->Flush(...))`. -/
def rocksdb_transactiondb_flush_cfs_with_status (h : Heap) (s : Status)
    (_cell : Option rocksdb_status) : Option rocksdb_status × Heap :=
  saveStatusCall h s

/-- `rocksdb_transactiondb_compact_range_cf_opt_with_status`
(`src/oxrocksdb-sys/api/c.cc` lines 286-298): `SaveStatus(statusptr,
db->rep->CompactRange(...))`. -/
def rocksdb_transactiondb_compact_range_cf_opt_with_status (h : Heap)
    (s : Status) (_cell : Option rocksdb_status) : Option rocksdb_status × Heap :=
  saveStatusCall h s

/-- `rocksdb_transaction_commit_with_status` (`src/oxrocksdb-sys/api/c.cc`
lines 330-333): `SaveStatus(statusptr, txn->rep->Commit())`. -/
def rocksdb_transaction_commit_with_status (h : Heap) (s : Status)
    (_cell : Option rocksdb_status) : Option rocksdb_status × Heap :=
  saveStatusCall h s

/-- `rocksdb_transaction_rollback_with_status` (`src/oxrocksdb-sys/api/c.cc`
lines 335-338): `SaveStatus(statusptr, txn->rep->Rollback())`. -/
def rocksdb_transaction_rollback_with_status (h : Heap) (s : Status)
    (_cell : Option rocksdb_status) : Option rocksdb_status × Heap :=
  saveStatusCall h s

/-- `rocksdb_transaction_put_cf_with_status` (`src/oxrocksdb-sys/api/c.cc`
lines 375-381): `SaveStatus(statusptr, txn->rep->Put(...))`. -/
def rocksdb_transaction_put_cf_with_status (h : Heap) (s : Status)
    (_cell : Option rocksdb_status) : Option rocksdb_status × Heap :=
  saveStatusCall h s

/-- `rocksdb_transaction_delete_cf_with_status`
(`src/oxrocksdb-sys/api/c.cc` lines 383-387): `SaveStatus(statusptr,
txn->rep->Delete(...))`. -/
def rocksdb_transaction_delete_cf_with_status (h : Heap) (s : Status)
    (_cell : Option rocksdb_status) : Option rocksdb_status × Heap :=
  saveStatusCall h s

/-- `rocksdb_sstfilewriter_open_with_status` (`src/oxrocksdb-sys/api/c.cc`
lines 389-393): `SaveStatus(statusptr, writer->rep->Open(...))`. -/
def rocksdb_sstfilewriter_open_with_status (h : Heap) (s : Status)
    (_cell : Option rocksdb_status) : Option rocksdb_status × Heap :=
  saveStatusCall h s

/-- `rocksdb_sstfilewriter_put_with_status` (`src/oxrocksdb-sys/api/c.cc`
lines 395-401): `SaveStatus(statusptr, writer->rep->Put(...))`. -/
def rocksdb_sstfilewriter_put_with_status (h : Heap) (s : Status)
    (_cell : Option rocksdb_status) : Option rocksdb_status × Heap :=
  saveStatusCall h s

/-- `rocksdb_sstfilewriter_finish_with_status` (`src/oxrocksdb-sys/api/c.cc`
lines 403-406): `SaveStatus(statusptr, writer->rep->Finish(nullptr))`. -/
def rocksdb_sstfilewriter_finish_with_status (h : Heap) (s : Status)
    (_cell : Option rocksdb_status) : Option rocksdb_status × Heap :=
  saveStatusCall h s

/-- `rocksdb_iter_get_status` (`src/oxrocksdb-sys/api/c.cc` lines 408-411):
`SaveStatus(statusptr, iter->rep->status())`. -/
def rocksdb_iter_get_status (h : Heap) (s : Status)
    (_cell : Option rocksdb_status) : Option rocksdb_status × Heap :=
  saveStatusCall h s

/-- The full record `SaveStatus` writes for outcome `s` on heap `h`. -/
def savedRecord (h : Heap) (s : Status) : rocksdb_status := (SaveStatus h s).1

/-- C1: for every pinned read operation (store get, transactional-store get,
transaction get, transaction getForUpdate), when the engine outcome is
NotFound the function returns a null pinned-buffer handle and does not write
the status output parameter: NotFound is signaled solely by the absent
result. -/
theorem pinned_get_notFound_null_and_status_untouched (h : Heap)
    (cell : Option rocksdb_status) (s : Status) (val : List Nat)
    (hnf : s.code = StatusCode.notFound) :
    ((rocksdb_get_pinned_cf_with_status h cell s val).ret = Option.none ∧
      (rocksdb_get_pinned_cf_with_status h cell s val).cell = cell) ∧
    ((rocksdb_transactiondb_get_pinned_cf_with_status h cell s val).ret = Option.none ∧
      (rocksdb_transactiondb_get_pinned_cf_with_status h cell s val).cell = cell) ∧
    ((rocksdb_transaction_get_pinned_cf_with_status h cell s val).ret = Option.none ∧
      (rocksdb_transaction_get_pinned_cf_with_status h cell s val).cell = cell) ∧
    ((rocksdb_transaction_get_for_update_pinned_cf_with_status h cell s val).ret = Option.none ∧
      (rocksdb_transaction_get_for_update_pinned_cf_with_status h cell s val).cell = cell) := by
  have hok : s.ok = false := by simp [Status.ok, hnf]
  have hinf : s.IsNotFound = true := by simp [Status.IsNotFound, hnf]
  refine ⟨⟨?_, ?_⟩, ⟨?_, ?_⟩, ⟨?_, ?_⟩, ⟨?_, ?_⟩⟩ <;>
    simp [rocksdb_get_pinned_cf_with_status,
      rocksdb_transactiondb_get_pinned_cf_with_status,
      rocksdb_transaction_get_pinned_cf_with_status,
      rocksdb_transaction_get_for_update_pinned_cf_with_status,
      Heap.alloc, Heap.free, hok, hinf]

/-- Concrete instance of the NotFound read discipline: all four pinned reads
return null and leave an unwritten status cell unwritten. -/
theorem pinned_get_notFound_null_and_status_untouched_witness :
    ((rocksdb_get_pinned_cf_with_status ⟨0, []⟩ Option.none
        ⟨StatusCode.notFound, StatusSubcode.noSub, StatusSeverity.noError, []⟩ []).ret = Option.none ∧
      (rocksdb_get_pinned_cf_with_status ⟨0, []⟩ Option.none
        ⟨StatusCode.notFound, StatusSubcode.noSub, StatusSeverity.noError, []⟩ []).cell = Option.none) ∧
    ((rocksdb_transactiondb_get_pinned_cf_with_status ⟨0, []⟩ Option.none
        ⟨StatusCode.notFound, StatusSubcode.noSub, StatusSeverity.noError, []⟩ []).ret = Option.none ∧
      (rocksdb_transactiondb_get_pinned_cf_with_status ⟨0, []⟩ Option.none
        ⟨StatusCode.notFound, StatusSubcode.noSub, StatusSeverity.noError, []⟩ []).cell = Option.none) ∧
    ((rocksdb_transaction_get_pinned_cf_with_status ⟨0, []⟩ Option.none
        ⟨StatusCode.notFound, StatusSubcode.noSub, StatusSeverity.noError, []⟩ []).ret = Option.none ∧
      (rocksdb_transaction_get_pinned_cf_with_status ⟨0, []⟩ Option.none
        ⟨StatusCode.notFound, StatusSubcode.noSub, StatusSeverity.noError, []⟩ []).cell = Option.none) ∧
    ((rocksdb_transaction_get_for_update_pinned_cf_with_status ⟨0, []⟩ Option.none
        ⟨StatusCode.notFound, StatusSubcode.noSub, StatusSeverity.noError, []⟩ []).ret = Option.none ∧
      (rocksdb_transaction_get_for_update_pinned_cf_with_status ⟨0, []⟩ Option.none
        ⟨StatusCode.notFound, StatusSubcode.noSub, StatusSeverity.noError, []⟩ []).cell = Option.none) :=
  pinned_get_notFound_null_and_status_untouched ⟨0, []⟩ Option.none
    ⟨StatusCode.notFound, StatusSubcode.noSub, StatusSeverity.noError, []⟩ [] rfl

/-- C2 (counterexample): a successful store pinned get returns a non-null
pinned buffer yet leaves the structured status output entirely unwritten
(the cell stays `Option.none`), so the status record is not fully written on
every call taking a structured-status output parameter. -/
theorem pinned_get_ok_leaves_status_unwritten :
    (rocksdb_get_pinned_cf_with_status ⟨0, []⟩ Option.none
        ⟨StatusCode.ok, StatusSubcode.noSub, StatusSeverity.noError, []⟩ [7]).ret = some 0 ∧
    (rocksdb_get_pinned_cf_with_status ⟨0, []⟩ Option.none
        ⟨StatusCode.ok, StatusSubcode.noSub, StatusSeverity.noError, []⟩ [7]).cell = Option.none := by
  decide

/-- C2 (amended): every call that unconditionally routes its outcome through
`SaveStatus` (puts, deletes, commit, rollback, flush, compaction, sst-writer
calls, iterator status, catch-up) writes the complete structured status
record on every call, success included; the four pinned reads write the
complete record exactly on a non-ok, non-NotFound outcome and leave the
status output untouched on the success and not-found paths. -/
theorem status_write_discipline (h : Heap) (s : Status)
    (cell : Option rocksdb_status) (val : List Nat) :
    ((rocksdb_try_catch_up_with_primary_with_status h s cell).1 = some (savedRecord h s) ∧
      (rocksdb_transactiondb_put_cf_with_status h s cell).1 = some (savedRecord h s) ∧
      (rocksdb_transactiondb_flush_cfs_with_status h s cell).1 = some (savedRecord h s) ∧
      (rocksdb_transactiondb_compact_range_cf_opt_with_status h s cell).1 = some (savedRecord h s) ∧
      (rocksdb_transaction_commit_with_status h s cell).1 = some (savedRecord h s) ∧
      (rocksdb_transaction_rollback_with_status h s cell).1 = some (savedRecord h s) ∧
      (rocksdb_transaction_put_cf_with_status h s cell).1 = some (savedRecord h s) ∧
      (rocksdb_transaction_delete_cf_with_status h s cell).1 = some (savedRecord h s) ∧
      (rocksdb_sstfilewriter_open_with_status h s cell).1 = some (savedRecord h s) ∧
      (rocksdb_sstfilewriter_put_with_status h s cell).1 = some (savedRecord h s) ∧
      (rocksdb_sstfilewriter_finish_with_status h s cell).1 = some (savedRecord h s) ∧
      (rocksdb_iter_get_status h s cell).1 = some (savedRecord h s)) ∧
    ((rocksdb_get_pinned_cf_with_status h cell s val).cell =
        if s.ok || s.IsNotFound then cell
        else some (savedRecord (Heap.free (h.alloc val).2 (h.alloc val).1) s)) ∧
    ((rocksdb_transactiondb_get_pinned_cf_with_status h cell s val).cell =
        if s.ok || s.IsNotFound then cell
        else some (savedRecord (Heap.free (h.alloc val).2 (h.alloc val).1) s)) ∧
    ((rocksdb_transaction_get_pinned_cf_with_status h cell s val).cell =
        if s.ok || s.IsNotFound then cell
        else some (savedRecord (Heap.free (h.alloc val).2 (h.alloc val).1) s)) ∧
    ((rocksdb_transaction_get_for_update_pinned_cf_with_status h cell s val).cell =
        if s.ok || s.IsNotFound then cell
        else some (savedRecord (Heap.free (h.alloc val).2 (h.alloc val).1) s)) := by
  refine ⟨⟨rfl, rfl, rfl, rfl, rfl, rfl, rfl, rfl, rfl, rfl, rfl, rfl⟩, ?_, ?_, ?_, ?_⟩ <;>
  · cases hok : s.ok with
    | true => simp [rocksdb_get_pinned_cf_with_status,
        rocksdb_transactiondb_get_pinned_cf_with_status,
        rocksdb_transaction_get_pinned_cf_with_status,
        rocksdb_transaction_get_for_update_pinned_cf_with_status, hok]
    | false =>
      cases hnf : s.IsNotFound with
      | true => simp [rocksdb_get_pinned_cf_with_status,
          rocksdb_transactiondb_get_pinned_cf_with_status,
          rocksdb_transaction_get_pinned_cf_with_status,
          rocksdb_transaction_get_for_update_pinned_cf_with_status, hok, hnf]
      | false => simp [rocksdb_get_pinned_cf_with_status,
          rocksdb_transactiondb_get_pinned_cf_with_status,
          rocksdb_transaction_get_pinned_cf_with_status,
          rocksdb_transaction_get_for_update_pinned_cf_with_status,
          savedRecord, hok, hnf]

/-- C6: `SaveStatus` copies code, subcode and severity from the engine
outcome; on ok the message pointer is null and the heap untouched; on
non-ok the message pointer is a fresh address — not an already-allocated
block and not an engine-owned address — holding a NUL-terminated copy of
the engine's message bytes; and the returned boolean reports failure
exactly when the outcome is non-ok. -/
theorem SaveStatus_translation (h : Heap) (s : Status) (engineAddrs : List Nat)
    (hwf : Heap.wf h) (heng : ∀ a ∈ engineAddrs, a < h.next) :
    (savedRecord h s).code = s.code ∧
    (savedRecord h s).subcode = s.subcode ∧
    (savedRecord h s).severity = s.severity ∧
    (s.ok = true → (savedRecord h s).string = Option.none ∧ (SaveStatus h s).2.1 = h) ∧
    (s.ok = false → (savedRecord h s).string = some h.next ∧
      h.next ∉ engineAddrs ∧ h.next ∉ h.addrs ∧
      (SaveStatus h s).2.1.lookup h.next = some (s.msg ++ [0])) ∧
    ((SaveStatus h s).2.2 = true ↔ s.ok = false) := by
  cases hok : s.ok with
  | true =>
    refine ⟨?_, ?_, ?_, ?_, ?_, ?_⟩ <;>
      simp [savedRecord, SaveStatus, hok, Heap.alloc, Heap.lookup]
  | false =>
    have hne : h.next ∉ h.addrs := fun hmem => absurd (hwf _ hmem) (Nat.lt_irrefl _)
    have hne2 : h.next ∉ engineAddrs := fun hmem => absurd (heng _ hmem) (Nat.lt_irrefl _)
    refine ⟨?_, ?_, ?_, ?_, ?_, ?_⟩ <;>
      simp [savedRecord, SaveStatus, hok, Heap.alloc, Heap.lookup, hne, hne2]

/-- Concrete instance of the `SaveStatus` translation contract, on a heap
holding one block and one engine-owned address, for a hard corruption
outcome. -/
theorem SaveStatus_translation_witness :
    (savedRecord ⟨1, [(0, [9])]⟩ ⟨StatusCode.corruption, StatusSubcode.noSub, StatusSeverity.hardError, [65]⟩).code = StatusCode.corruption ∧
    (savedRecord ⟨1, [(0, [9])]⟩ ⟨StatusCode.corruption, StatusSubcode.noSub, StatusSeverity.hardError, [65]⟩).subcode = StatusSubcode.noSub ∧
    (savedRecord ⟨1, [(0, [9])]⟩ ⟨StatusCode.corruption, StatusSubcode.noSub, StatusSeverity.hardError, [65]⟩).severity = StatusSeverity.hardError ∧
    ((⟨StatusCode.corruption, StatusSubcode.noSub, StatusSeverity.hardError, [65]⟩ : Status).ok = true →
      (savedRecord ⟨1, [(0, [9])]⟩ ⟨StatusCode.corruption, StatusSubcode.noSub, StatusSeverity.hardError, [65]⟩).string = Option.none ∧
      (SaveStatus ⟨1, [(0, [9])]⟩ ⟨StatusCode.corruption, StatusSubcode.noSub, StatusSeverity.hardError, [65]⟩).2.1 = ⟨1, [(0, [9])]⟩) ∧
    ((⟨StatusCode.corruption, StatusSubcode.noSub, StatusSeverity.hardError, [65]⟩ : Status).ok = false →
      (savedRecord ⟨1, [(0, [9])]⟩ ⟨StatusCode.corruption, StatusSubcode.noSub, StatusSeverity.hardError, [65]⟩).string = some 1 ∧
      (1 : Nat) ∉ [(0 : Nat)] ∧
      (1 : Nat) ∉ Heap.addrs ⟨1, [(0, [9])]⟩ ∧
      (SaveStatus ⟨1, [(0, [9])]⟩ ⟨StatusCode.corruption, StatusSubcode.noSub, StatusSeverity.hardError, [65]⟩).2.1.lookup 1 = some ([65] ++ [0])) ∧
    ((SaveStatus ⟨1, [(0, [9])]⟩ ⟨StatusCode.corruption, StatusSubcode.noSub, StatusSeverity.hardError, [65]⟩).2.2 = true ↔
      (⟨StatusCode.corruption, StatusSubcode.noSub, StatusSeverity.hardError, [65]⟩ : Status).ok = false) :=
  SaveStatus_translation ⟨1, [(0, [9])]⟩
    ⟨StatusCode.corruption, StatusSubcode.noSub, StatusSeverity.hardError, [65]⟩
    [0] (by intro a ha; simp [Heap.addrs] at ha; subst ha; decide)
    (by intro a ha; simp at ha; subst ha; decide)

/-- Every block of a well-formed heap keeps its address distinct from the
fresh-address supply, so releasing a freshly allocated block leaves the
pre-existing blocks untouched. -/
theorem filter_ne_of_wf (h : Heap) (hwf : Heap.wf h) :
    h.blocks.filter (fun p => p.1 != h.next) = h.blocks := by
  apply List.filter_eq_self.mpr
  intro p hp
  have hlt : p.1 < h.next := hwf p.1 (by simp [Heap.addrs]; exact ⟨p.2, hp⟩)
  simp [bne_iff_ne]
  omega

/-- C7: for every pinned read operation, a non-ok, non-NotFound engine
outcome makes the call delete the partially constructed pinned-buffer
wrapper before saving the error status (the event trace frees the wrapper
strictly before the status write), leave the wrapper deallocated (only the
status message block is added to the heap), populate the structured status,
and return null. -/
theorem pinned_get_failure_releases_wrapper_before_status (h : Heap)
    (cell : Option rocksdb_status) (s : Status) (val : List Nat)
    (hwf : Heap.wf h) (hok : s.ok = false) (hnf : s.IsNotFound = false) :

    ((rocksdb_get_pinned_cf_with_status h cell s val).ret = Option.none ∧
     (rocksdb_get_pinned_cf_with_status h cell s val).events =
       [Ev.allocSlice h.next, Ev.engineGet, Ev.freeSlice h.next, Ev.saveStatus] ∧
     (rocksdb_get_pinned_cf_with_status h cell s val).heap.blocks = (h.next + 1, s.msg ++ [0]) :: h.blocks ∧
     h.next ∉ (rocksdb_get_pinned_cf_with_status h cell s val).heap.addrs ∧
     (rocksdb_get_pinned_cf_with_status h cell s val).cell = some ⟨s.code, s.subcode, s.severity, some (h.next + 1)⟩) ∧
    ((rocksdb_transactiondb_get_pinned_cf_with_status h cell s val).ret = Option.none ∧
     (rocksdb_transactiondb_get_pinned_cf_with_status h cell s val).events =
       [Ev.allocSlice h.next, Ev.engineGet, Ev.freeSlice h.next, Ev.saveStatus] ∧
     (rocksdb_transactiondb_get_pinned_cf_with_status h cell s val).heap.blocks = (h.next + 1, s.msg ++ [0]) :: h.blocks ∧
     h.next ∉ (rocksdb_transactiondb_get_pinned_cf_with_status h cell s val).heap.addrs ∧
     (rocksdb_transactiondb_get_pinned_cf_with_status h cell s val).cell = some ⟨s.code, s.subcode, s.severity, some (h.next + 1)⟩) ∧
    ((rocksdb_transaction_get_pinned_cf_with_status h cell s val).ret = Option.none ∧
     (rocksdb_transaction_get_pinned_cf_with_status h cell s val).events =
       [Ev.allocSlice h.next, Ev.engineGet, Ev.freeSlice h.next, Ev.saveStatus] ∧
     (rocksdb_transaction_get_pinned_cf_with_status h cell s val).heap.blocks = (h.next + 1, s.msg ++ [0]) :: h.blocks ∧
     h.next ∉ (rocksdb_transaction_get_pinned_cf_with_status h cell s val).heap.addrs ∧
     (rocksdb_transaction_get_pinned_cf_with_status h cell s val).cell = some ⟨s.code, s.subcode, s.severity, some (h.next + 1)⟩) ∧
    ((rocksdb_transaction_get_for_update_pinned_cf_with_status h cell s val).ret = Option.none ∧
     (rocksdb_transaction_get_for_update_pinned_cf_with_status h cell s val).events =
       [Ev.allocSlice h.next, Ev.engineGet, Ev.freeSlice h.next, Ev.saveStatus] ∧
     (rocksdb_transaction_get_for_update_pinned_cf_with_status h cell s val).heap.blocks = (h.next + 1, s.msg ++ [0]) :: h.blocks ∧
     h.next ∉ (rocksdb_transaction_get_for_update_pinned_cf_with_status h cell s val).heap.addrs ∧
     (rocksdb_transaction_get_for_update_pinned_cf_with_status h cell s val).cell = some ⟨s.code, s.subcode, s.severity, some (h.next + 1)⟩) := by
  have haddr : h.next ∉ h.addrs := fun hmem => absurd (hwf _ hmem) (Nat.lt_irrefl _)
  have hblocks : (rocksdb_get_pinned_cf_with_status h cell s val).heap.blocks =
      (h.next + 1, s.msg ++ [0]) :: h.blocks := by
    simp [rocksdb_get_pinned_cf_with_status, Heap.alloc, Heap.free, SaveStatus, hok, hnf,
      filter_ne_of_wf h hwf]
  have main : (rocksdb_get_pinned_cf_with_status h cell s val).ret = Option.none ∧
      (rocksdb_get_pinned_cf_with_status h cell s val).events =
        [Ev.allocSlice h.next, Ev.engineGet, Ev.freeSlice h.next, Ev.saveStatus] ∧
      (rocksdb_get_pinned_cf_with_status h cell s val).heap.blocks =
        (h.next + 1, s.msg ++ [0]) :: h.blocks ∧
      h.next ∉ (rocksdb_get_pinned_cf_with_status h cell s val).heap.addrs ∧
      (rocksdb_get_pinned_cf_with_status h cell s val).cell =
        some ⟨s.code, s.subcode, s.severity, some (h.next + 1)⟩ := by
    refine ⟨?_, ?_, hblocks, ?_, ?_⟩
    · simp [rocksdb_get_pinned_cf_with_status, hok, hnf]
    · simp [rocksdb_get_pinned_cf_with_status, Heap.alloc, hok, hnf]
    · intro hmem
      simp only [Heap.addrs, hblocks] at hmem
      simp at hmem
      obtain ⟨b, hb⟩ := hmem
      exact haddr (by simp [Heap.addrs]; exact ⟨b, hb⟩)
    · simp [rocksdb_get_pinned_cf_with_status, Heap.alloc, Heap.free, SaveStatus, hok, hnf]
  exact ⟨main, main, main, main⟩

/-- Concrete instance of the failure path of all four pinned reads, for an
IO-error / no-space outcome on an empty heap. -/
theorem pinned_get_failure_releases_wrapper_before_status_witness :

    ((rocksdb_get_pinned_cf_with_status ⟨0, []⟩ Option.none ⟨StatusCode.ioError, StatusSubcode.noSpace, StatusSeverity.hardError, [66]⟩ []).ret = Option.none ∧
     (rocksdb_get_pinned_cf_with_status ⟨0, []⟩ Option.none ⟨StatusCode.ioError, StatusSubcode.noSpace, StatusSeverity.hardError, [66]⟩ []).events = [Ev.allocSlice 0, Ev.engineGet, Ev.freeSlice 0, Ev.saveStatus] ∧
     (rocksdb_get_pinned_cf_with_status ⟨0, []⟩ Option.none ⟨StatusCode.ioError, StatusSubcode.noSpace, StatusSeverity.hardError, [66]⟩ []).heap.blocks = [(1, [66, 0])] ∧
     (0 : Nat) ∉ (rocksdb_get_pinned_cf_with_status ⟨0, []⟩ Option.none ⟨StatusCode.ioError, StatusSubcode.noSpace, StatusSeverity.hardError, [66]⟩ []).heap.addrs ∧
     (rocksdb_get_pinned_cf_with_status ⟨0, []⟩ Option.none ⟨StatusCode.ioError, StatusSubcode.noSpace, StatusSeverity.hardError, [66]⟩ []).cell = some ⟨StatusCode.ioError, StatusSubcode.noSpace, StatusSeverity.hardError, some 1⟩) ∧
    ((rocksdb_transactiondb_get_pinned_cf_with_status ⟨0, []⟩ Option.none ⟨StatusCode.ioError, StatusSubcode.noSpace, StatusSeverity.hardError, [66]⟩ []).ret = Option.none ∧
     (rocksdb_transactiondb_get_pinned_cf_with_status ⟨0, []⟩ Option.none ⟨StatusCode.ioError, StatusSubcode.noSpace, StatusSeverity.hardError, [66]⟩ []).events = [Ev.allocSlice 0, Ev.engineGet, Ev.freeSlice 0, Ev.saveStatus] ∧
     (rocksdb_transactiondb_get_pinned_cf_with_status ⟨0, []⟩ Option.none ⟨StatusCode.ioError, StatusSubcode.noSpace, StatusSeverity.hardError, [66]⟩ []).heap.blocks = [(1, [66, 0])] ∧
     (0 : Nat) ∉ (rocksdb_transactiondb_get_pinned_cf_with_status ⟨0, []⟩ Option.none ⟨StatusCode.ioError, StatusSubcode.noSpace, StatusSeverity.hardError, [66]⟩ []).heap.addrs ∧
     (rocksdb_transactiondb_get_pinned_cf_with_status ⟨0, []⟩ Option.none ⟨StatusCode.ioError, StatusSubcode.noSpace, StatusSeverity.hardError, [66]⟩ []).cell = some ⟨StatusCode.ioError, StatusSubcode.noSpace, StatusSeverity.hardError, some 1⟩) ∧
    ((rocksdb_transaction_get_pinned_cf_with_status ⟨0, []⟩ Option.none ⟨StatusCode.ioError, StatusSubcode.noSpace, StatusSeverity.hardError, [66]⟩ []).ret = Option.none ∧
     (rocksdb_transaction_get_pinned_cf_with_status ⟨0, []⟩ Option.none ⟨StatusCode.ioError, StatusSubcode.noSpace, StatusSeverity.hardError, [66]⟩ []).events = [Ev.allocSlice 0, Ev.engineGet, Ev.freeSlice 0, Ev.saveStatus] ∧
     (rocksdb_transaction_get_pinned_cf_with_status ⟨0, []⟩ Option.none ⟨StatusCode.ioError, StatusSubcode.noSpace, StatusSeverity.hardError, [66]⟩ []).heap.blocks = [(1, [66, 0])] ∧
     (0 : Nat) ∉ (rocksdb_transaction_get_pinned_cf_with_status ⟨0, []⟩ Option.none ⟨StatusCode.ioError, StatusSubcode.noSpace, StatusSeverity.hardError, [66]⟩ []).heap.addrs ∧
     (rocksdb_transaction_get_pinned_cf_with_status ⟨0, []⟩ Option.none ⟨StatusCode.ioError, StatusSubcode.noSpace, StatusSeverity.hardError, [66]⟩ []).cell = some ⟨StatusCode.ioError, StatusSubcode.noSpace, StatusSeverity.hardError, some 1⟩) ∧
    ((rocksdb_transaction_get_for_update_pinned_cf_with_status ⟨0, []⟩ Option.none ⟨StatusCode.ioError, StatusSubcode.noSpace, StatusSeverity.hardError, [66]⟩ []).ret = Option.none ∧
     (rocksdb_transaction_get_for_update_pinned_cf_with_status ⟨0, []⟩ Option.none ⟨StatusCode.ioError, StatusSubcode.noSpace, StatusSeverity.hardError, [66]⟩ []).events = [Ev.allocSlice 0, Ev.engineGet, Ev.freeSlice 0, Ev.saveStatus] ∧
     (rocksdb_transaction_get_for_update_pinned_cf_with_status ⟨0, []⟩ Option.none ⟨StatusCode.ioError, StatusSubcode.noSpace, StatusSeverity.hardError, [66]⟩ []).heap.blocks = [(1, [66, 0])] ∧
     (0 : Nat) ∉ (rocksdb_transaction_get_for_update_pinned_cf_with_status ⟨0, []⟩ Option.none ⟨StatusCode.ioError, StatusSubcode.noSpace, StatusSeverity.hardError, [66]⟩ []).heap.addrs ∧
     (rocksdb_transaction_get_for_update_pinned_cf_with_status ⟨0, []⟩ Option.none ⟨StatusCode.ioError, StatusSubcode.noSpace, StatusSeverity.hardError, [66]⟩ []).cell = some ⟨StatusCode.ioError, StatusSubcode.noSpace, StatusSeverity.hardError, some 1⟩) :=
  pinned_get_failure_releases_wrapper_before_status ⟨0, []⟩ Option.none
    ⟨StatusCode.ioError, StatusSubcode.noSpace, StatusSeverity.hardError, [66]⟩ []
    (by intro a ha; simp [Heap.addrs] at ha) rfl rfl

/-- A `rocksdb::Slice`: a borrowed pointer into caller memory plus a
length.  Copying a slice copies the pointer and the length, never the
bytes it points at. -/
structure Slice where
  data : Nat
  size : Nat
  deriving DecidableEq

/-- The bytes a slice currently denotes in caller memory `m` (memory is a
byte array indexed by address). -/
def readSliceBytes (m : List Nat) (s : Slice) : List Nat :=
  (List.range s.size).map (fun i => m.getD (s.data + i) 0)

/-- `rocksdb_readoptions_t` (`src/oxrocksdb-sys/api/c.cc` lines 66-73): the
engine `ReadOptions` value (its scalar settings abstracted into one field)
plus the four stack `Slice`s that the record's bound/timestamp pointers are
set to. -/
structure rocksdb_readoptions_t where
  rep : Nat
  upper_bound : Slice
  lower_bound : Slice
  timestamp : Slice
  iter_start_ts : Slice
  deriving DecidableEq

/-- `rocksdb_readoptions_create_copy` (`src/oxrocksdb-sys/api/c.cc` lines
413-416; also `src/rocksdb-sys/api/c.cc` lines 213-215):
`new rocksdb_readoptions_t(*options)` — the implicit member-wise copy
constructor, which copies every `Slice` member as pointer plus length. -/
def rocksdb_readoptions_create_copy (options : rocksdb_readoptions_t) :
    rocksdb_readoptions_t :=
  { rep := options.rep, upper_bound := options.upper_bound,
    lower_bound := options.lower_bound, timestamp := options.timestamp,
    iter_start_ts := options.iter_start_ts }

/-- C3 (counterexample): take a source options record whose upper bound
borrows the single byte at caller address 0, holding 5.  Mutating the
source's borrowed bound byte (the byte at `upper_bound.data`) to 7 changes
the bound bytes observed through the copy from `[5]` to `[7]`: the copy
shares the borrowed bytes instead of owning an independent deep copy of
them. -/
theorem readoptions_copy_shares_borrowed_bytes :
    ([5].set (⟨0, ⟨0, 1⟩, ⟨0, 0⟩, ⟨0, 0⟩, ⟨0, 0⟩⟩ : rocksdb_readoptions_t).upper_bound.data 7
      = [7]) ∧
    readSliceBytes [5]
      (rocksdb_readoptions_create_copy ⟨0, ⟨0, 1⟩, ⟨0, 0⟩, ⟨0, 0⟩, ⟨0, 0⟩⟩).upper_bound = [5] ∧
    readSliceBytes [7]
      (rocksdb_readoptions_create_copy ⟨0, ⟨0, 1⟩, ⟨0, 0⟩, ⟨0, 0⟩, ⟨0, 0⟩⟩).upper_bound = [7] := by
  decide

/-- C3 (amended): `rocksdb_readoptions_create_copy` produces an independent
record whose scalar field and all four slice descriptors (pointer and
length) equal the source's, but it does not copy the borrowed bound bytes:
in every caller memory state — in particular after any mutation of the
source's borrowed bytes — the copy's bound bytes are exactly the bytes the
source's bounds denote, because both share the same borrowed memory. -/
theorem readoptions_copy_is_memberwise_shallow (o : rocksdb_readoptions_t)
    (m : List Nat) (a b : Nat) :
    (rocksdb_readoptions_create_copy o).rep = o.rep ∧
    (rocksdb_readoptions_create_copy o).upper_bound = o.upper_bound ∧
    (rocksdb_readoptions_create_copy o).lower_bound = o.lower_bound ∧
    (rocksdb_readoptions_create_copy o).timestamp = o.timestamp ∧
    (rocksdb_readoptions_create_copy o).iter_start_ts = o.iter_start_ts ∧
    readSliceBytes (m.set a b) (rocksdb_readoptions_create_copy o).upper_bound =
      readSliceBytes (m.set a b) o.upper_bound ∧
    readSliceBytes (m.set a b) (rocksdb_readoptions_create_copy o).lower_bound =
      readSliceBytes (m.set a b) o.lower_bound :=
  ⟨rfl, rfl, rfl, rfl, rfl, rfl, rfl⟩

/-- `rocksdb_ingestexternalfilearg_t` (`src/oxrocksdb-sys/api/c.h` lines
61-66): a column-family handle reference, the caller's file-path strings
(borrowed for the call), and an ingest-options reference. -/
structure rocksdb_ingestexternalfilearg_t where
  column_family : Nat
  external_files : List (List Nat)
  options : Nat
  deriving DecidableEq

/-- The engine's `IngestExternalFileArg` as assembled by the bridge. -/
structure IngestExternalFileArg where
  column_family : Nat
  external_files : List (List Nat)
  options : Nat
  deriving DecidableEq

/-- The inner marshalling loop (`files[j] = std::string(...)` for ascending
`j`): copies the path strings of one triple in their original order. -/
def marshalFiles : List (List Nat) → List (List Nat)
  | [] => []
  | f :: fs => f :: marshalFiles fs

/-- The outer marshalling loop of
`rocksdb_transactiondb_ingest_external_files_with_status`
(`src/oxrocksdb-sys/api/c.cc` lines 303-312): for ascending `i`, `args[i]`
takes triple `i`'s column family, its copied file list, and its options. -/
def marshalIngestArgs : List rocksdb_ingestexternalfilearg_t → List IngestExternalFileArg
  | [] => []
  | a :: rest =>
    { column_family := a.column_family,
      external_files := marshalFiles a.external_files,
      options := a.options } :: marshalIngestArgs rest

/-- Copying the path strings of one triple is order- and content
preserving. -/
theorem marshalFiles_eq (fs : List (List Nat)) : marshalFiles fs = fs := by
  induction fs with
  | nil => rfl
  | cons f rest ih => simp [marshalFiles, ih]

/-- Allocate one block per byte list (a `new`ed C++ container each),
returning the addresses in order. -/
def Heap.allocMany : Heap → List (List Nat) → List Nat × Heap
  | h, [] => ([], h)
  | h, b :: bs =>
    let (a, h1) := h.alloc b
    let (rest, h2) := h1.allocMany bs
    (a :: rest, h2)

/-- Release every block whose address is in the list (RAII scope exit of
the transient containers). -/
def Heap.freeMany (h : Heap) (l : List Nat) : Heap :=
  ⟨h.next, h.blocks.filter (fun p => !(l.contains p.1))⟩

/-- Result of the ingest bridge call: the engine's applied group list, the
status output cell, and the heap after the call. -/
structure IngestResult where
  dbGroups : List IngestExternalFileArg
  cell : Option rocksdb_status
  heap : Heap
  deriving DecidableEq

/-- The engine's own all-or-nothing guarantee for `IngestExternalFiles`
over a multi-group request, which the bridge forwards unchanged: one call
either applies every group of the request in order at the end of the
applied-group state, reporting ok, or applies none, reporting a non-ok
status. -/
def engineAtomic
    (engine : List IngestExternalFileArg → List IngestExternalFileArg →
      Status × List IngestExternalFileArg) : Prop :=
  ∀ st args,
    ((engine st args).1.ok = true ∧ (engine st args).2 = st ++ args) ∨
    ((engine st args).1.ok = false ∧ (engine st args).2 = st)

/-- `rocksdb_transactiondb_ingest_external_files_with_status`
(`src/oxrocksdb-sys/api/c.cc` lines 300-314; also `src/rocksdb-sys/api/c.cc`
lines 103-117): builds the native argument vector — the transient
`std::vector`/`std::string` containers are modelled as one heap block per
triple holding its copied path bytes — forwards the whole batch to the
engine in a single `IngestExternalFiles` call, saves the resulting status,
and releases every transient container at scope exit, before returning.
`db` is the engine's applied-group state and `engine` the engine's
`IngestExternalFiles`. -/
def rocksdb_transactiondb_ingest_external_files_with_status (h : Heap)
    (db : List IngestExternalFileArg)
    (engine : List IngestExternalFileArg → List IngestExternalFileArg →
      Status × List IngestExternalFileArg)
    (list : List rocksdb_ingestexternalfilearg_t)
    (_cell : Option rocksdb_status) : IngestResult :=
  let (transients, h1) := h.allocMany (list.map (fun a => a.external_files.flatten))
  let args := marshalIngestArgs list
  let (s, db2) := engine db args
  let (t, h2, _) := SaveStatus h1 s
  { dbGroups := db2, cell := some t, heap := h2.freeMany transients }

/-- C4: the native request assembled for the engine has exactly as many
groups as the caller's triple list, group `i` carries triple `i`'s
column-family reference, triple `i`'s options reference and triple `i`'s
file paths in their original order, and the bridge hands exactly this
request to the engine in one call — column-family groups and file lists
are never reordered. -/
theorem ingest_marshalling_preserves_groups_and_order
    (list : List rocksdb_ingestexternalfilearg_t) :
    (marshalIngestArgs list).length = list.length ∧
    (∀ i : Nat,
      ((marshalIngestArgs list)[i]?).map IngestExternalFileArg.column_family =
        (list[i]?).map rocksdb_ingestexternalfilearg_t.column_family ∧
      ((marshalIngestArgs list)[i]?).map IngestExternalFileArg.options =
        (list[i]?).map rocksdb_ingestexternalfilearg_t.options ∧
      ((marshalIngestArgs list)[i]?).map IngestExternalFileArg.external_files =
        (list[i]?).map rocksdb_ingestexternalfilearg_t.external_files) ∧
    (∀ (h : Heap) (db : List IngestExternalFileArg)
       (engine : List IngestExternalFileArg → List IngestExternalFileArg →
         Status × List IngestExternalFileArg) (cell : Option rocksdb_status),
      (rocksdb_transactiondb_ingest_external_files_with_status h db engine list cell).dbGroups
        = (engine db (marshalIngestArgs list)).2) := by
  refine ⟨?_, ?_, fun h db engine cell => rfl⟩
  · induction list with
    | nil => rfl
    | cons a rest ih => simp [marshalIngestArgs, ih]
  · intro i
    induction list generalizing i with
    | nil => simp [marshalIngestArgs]
    | cons a rest ih =>
      cases i with
      | zero => simp [marshalIngestArgs, marshalFiles_eq]
      | succ j => simpa [marshalIngestArgs] using ih j

theorem allocMany_next (h : Heap) (bs : List (List Nat)) :
    (h.allocMany bs).2.next = h.next + bs.length := by
  induction bs generalizing h with
  | nil => simp [Heap.allocMany]
  | cons b rest ih =>
    simp [Heap.allocMany, Heap.alloc, ih]
    omega

/-- Every address returned by a sequence of allocations lies in the fresh
range that the allocation spans. -/
theorem allocMany_addr_range (h : Heap) (bs : List (List Nat)) :
    ∀ a ∈ (h.allocMany bs).1, h.next ≤ a ∧ a < h.next + bs.length := by
  induction bs generalizing h with
  | nil => simp [Heap.allocMany]
  | cons b rest ih =>
    intro a ha
    simp [Heap.allocMany, Heap.alloc] at ha
    rcases ha with rfl | ha
    · constructor
      · exact Nat.le_refl _
      · simp
    · have := ih ⟨h.next + 1, (h.next, b) :: h.blocks⟩ a ha
      simp at this
      have hl : (b :: rest).length = rest.length + 1 := rfl
      omega

/-- A sequence of allocations prepends exactly the (address, content) pairs
it created. -/
theorem allocMany_blocks (h : Heap) (bs : List (List Nat)) :
    (h.allocMany bs).2.blocks = (((h.allocMany bs).1).zip bs).reverse ++ h.blocks := by
  induction bs generalizing h with
  | nil => simp [Heap.allocMany]
  | cons b rest ih =>
    simp [Heap.allocMany, Heap.alloc]
    rw [ih ⟨h.next + 1, (h.next, b) :: h.blocks⟩]

/-- Dropping the freshly allocated addresses from the heap after a sequence
of allocations restores the original blocks (well-formedness keeps old and
new addresses apart). -/
theorem filter_blocks_allocMany (h : Heap) (hwf : Heap.wf h) (bs : List (List Nat)) :
    ((h.allocMany bs).2.blocks).filter (fun p => !((h.allocMany bs).1.contains p.1)) = h.blocks := by
  rw [allocMany_blocks, List.filter_append]
  have h1 : (((h.allocMany bs).1.zip bs).reverse).filter
      (fun p => !((h.allocMany bs).1.contains p.1)) = [] := by
    apply List.filter_eq_nil_iff.mpr
    intro p hp
    rw [List.mem_reverse] at hp
    have hmem : p.1 ∈ (h.allocMany bs).1 := by
      obtain ⟨p1, p2⟩ := p
      exact (List.of_mem_zip hp).1
    simp [hmem]
  have h2 : h.blocks.filter (fun p => !((h.allocMany bs).1.contains p.1)) = h.blocks := by
    apply List.filter_eq_self.mpr
    intro p hp
    have hlt : p.1 < h.next := hwf p.1 (by simp [Heap.addrs]; exact ⟨p.2, hp⟩)
    have hnm : p.1 ∉ (h.allocMany bs).1 := fun hc =>
      absurd (allocMany_addr_range h bs p.1 hc).1 (by omega)
    simp [hnm]
  rw [h1, h2]
  rfl

/-- `SaveStatus` leaves the heap untouched on an ok outcome. -/
theorem SaveStatus_heap_of_ok (h : Heap) (s : Status) (hok : s.ok = true) :
    (SaveStatus h s).2.1 = h := by simp [SaveStatus, hok]

/-- `SaveStatus` allocates exactly the message block on a non-ok
outcome. -/
theorem SaveStatus_heap_of_err (h : Heap) (s : Status) (hok : s.ok = false) :
    (SaveStatus h s).2.1 = ⟨h.next + 1, (h.next, s.msg ++ [0]) :: h.blocks⟩ := by
  simp [SaveStatus, Heap.alloc, hok]

/-- The record `SaveStatus` writes on an ok outcome. -/
theorem SaveStatus_fst_of_ok (h : Heap) (s : Status) (hok : s.ok = true) :
    (SaveStatus h s).1 = ⟨s.code, s.subcode, s.severity, Option.none⟩ := by
  simp [SaveStatus, hok]

/-- The record `SaveStatus` writes on a non-ok outcome. -/
theorem SaveStatus_fst_of_err (h : Heap) (s : Status) (hok : s.ok = false) :
    (SaveStatus h s).1 = ⟨s.code, s.subcode, s.severity, some h.next⟩ := by
  simp [SaveStatus, Heap.alloc, hok]

/-- C5: under the engine's own all-or-nothing guarantee, an ingest call with
any batch of triples (live references, non-empty file lists) either applies
every marshalled group — ok status saved, every transient marshalling
container released, heap as before — or applies none: the engine state is
unchanged, the saved status carries a non-ok code, and the only block left
behind is the caller-owned status message; the transient containers are
released before returning in both cases. -/
theorem ingest_all_or_nothing_releases_transients (h : Heap)
    (db : List IngestExternalFileArg)
    (engine : List IngestExternalFileArg → List IngestExternalFileArg →
      Status × List IngestExternalFileArg)
    (list : List rocksdb_ingestexternalfilearg_t)
    (cell : Option rocksdb_status)
    (hwf : Heap.wf h) (hatomic : engineAtomic engine)
    (_hne : ∀ a ∈ list, a.external_files ≠ []) :
    ((engine db (marshalIngestArgs list)).1.ok = true →
      (rocksdb_transactiondb_ingest_external_files_with_status h db engine list cell).dbGroups
        = db ++ marshalIngestArgs list ∧
      (rocksdb_transactiondb_ingest_external_files_with_status h db engine list cell).heap.blocks
        = h.blocks ∧
      (rocksdb_transactiondb_ingest_external_files_with_status h db engine list cell).cell
        = some ⟨(engine db (marshalIngestArgs list)).1.code,
                (engine db (marshalIngestArgs list)).1.subcode,
                (engine db (marshalIngestArgs list)).1.severity, Option.none⟩) ∧
    ((engine db (marshalIngestArgs list)).1.ok = false →
      (rocksdb_transactiondb_ingest_external_files_with_status h db engine list cell).dbGroups
        = db ∧
      (rocksdb_transactiondb_ingest_external_files_with_status h db engine list cell).heap.blocks
        = (h.next + list.length, (engine db (marshalIngestArgs list)).1.msg ++ [0]) :: h.blocks ∧
      (rocksdb_transactiondb_ingest_external_files_with_status h db engine list cell).cell
        = some ⟨(engine db (marshalIngestArgs list)).1.code,
                (engine db (marshalIngestArgs list)).1.subcode,
                (engine db (marshalIngestArgs list)).1.severity,
                some (h.next + list.length)⟩ ∧
      (engine db (marshalIngestArgs list)).1.code ≠ StatusCode.ok) := by
  have hlen : (list.map (fun a => a.external_files.flatten)).length = list.length := by
    simp
  have hnext : (h.allocMany (list.map (fun a => a.external_files.flatten))).2.next
      = h.next + list.length := by rw [allocMany_next, hlen]
  have hdb : (rocksdb_transactiondb_ingest_external_files_with_status h db engine list cell).dbGroups
      = (engine db (marshalIngestArgs list)).2 := rfl
  have hcell : (rocksdb_transactiondb_ingest_external_files_with_status h db engine list cell).cell
      = some (SaveStatus ((h.allocMany (list.map (fun a => a.external_files.flatten))).2)
          ((engine db (marshalIngestArgs list)).1)).1 := rfl
  have hheap : (rocksdb_transactiondb_ingest_external_files_with_status h db engine list cell).heap
      = ((SaveStatus ((h.allocMany (list.map (fun a => a.external_files.flatten))).2)
          ((engine db (marshalIngestArgs list)).1)).2.1).freeMany
          ((h.allocMany (list.map (fun a => a.external_files.flatten))).1) := rfl
  constructor
  · intro hok
    rcases hatomic db (marshalIngestArgs list) with ⟨hok2, happ⟩ | ⟨hok2, happ⟩
    · refine ⟨by rw [hdb, happ], ?_, ?_⟩
      · rw [hheap, SaveStatus_heap_of_ok _ _ hok]
        show (Heap.freeMany _ _).blocks = h.blocks
        simp only [Heap.freeMany]
        exact filter_blocks_allocMany h hwf _
      · rw [hcell, SaveStatus_fst_of_ok _ _ hok]
    · rw [hok] at hok2
      cases hok2
  · intro hok
    rcases hatomic db (marshalIngestArgs list) with ⟨hok2, happ⟩ | ⟨hok2, happ⟩
    · rw [hok] at hok2
      cases hok2
    · have hnotin : (h.allocMany (list.map (fun a => a.external_files.flatten))).2.next
          ∉ (h.allocMany (list.map (fun a => a.external_files.flatten))).1 := by
        intro hc
        have := (allocMany_addr_range h _ _ hc).2
        rw [hlen] at this
        rw [hnext] at this
        omega
      refine ⟨by rw [hdb, happ], ?_, ?_, ?_⟩
      · rw [hheap, SaveStatus_heap_of_err _ _ hok]
        show (Heap.freeMany _ _).blocks = _
        simp only [Heap.freeMany]
        rw [List.filter_cons, if_pos (by simp [hnotin]), filter_blocks_allocMany h hwf,
          hnext]
      · rw [hcell, SaveStatus_fst_of_err _ _ hok, hnext]
      · intro hc
        simp [Status.ok, hc] at hok

/-- Concrete instance of the ingest bridge contract: one single-triple batch
against an engine that accepts it, and the same batch against an engine
that rejects it with InvalidArgument. -/
theorem ingest_all_or_nothing_releases_transients_witness :
    ((rocksdb_transactiondb_ingest_external_files_with_status ⟨0, []⟩ []
        (fun st args => (⟨StatusCode.ok, StatusSubcode.noSub, StatusSeverity.noError, []⟩, st ++ args))
        [⟨1, [[97]], 2⟩] Option.none).dbGroups = [⟨1, [[97]], 2⟩] ∧
      (rocksdb_transactiondb_ingest_external_files_with_status ⟨0, []⟩ []
        (fun st args => (⟨StatusCode.ok, StatusSubcode.noSub, StatusSeverity.noError, []⟩, st ++ args))
        [⟨1, [[97]], 2⟩] Option.none).heap.blocks = [] ∧
      (rocksdb_transactiondb_ingest_external_files_with_status ⟨0, []⟩ []
        (fun st args => (⟨StatusCode.ok, StatusSubcode.noSub, StatusSeverity.noError, []⟩, st ++ args))
        [⟨1, [[97]], 2⟩] Option.none).cell
        = some ⟨StatusCode.ok, StatusSubcode.noSub, StatusSeverity.noError, Option.none⟩) ∧
    ((rocksdb_transactiondb_ingest_external_files_with_status ⟨0, []⟩ []
        (fun st _ => (⟨StatusCode.invalidArgument, StatusSubcode.noSub, StatusSeverity.noError, [70]⟩, st))
        [⟨1, [[97]], 2⟩] Option.none).dbGroups = [] ∧
      (rocksdb_transactiondb_ingest_external_files_with_status ⟨0, []⟩ []
        (fun st _ => (⟨StatusCode.invalidArgument, StatusSubcode.noSub, StatusSeverity.noError, [70]⟩, st))
        [⟨1, [[97]], 2⟩] Option.none).heap.blocks = [(1, [70, 0])] ∧
      (rocksdb_transactiondb_ingest_external_files_with_status ⟨0, []⟩ []
        (fun st _ => (⟨StatusCode.invalidArgument, StatusSubcode.noSub, StatusSeverity.noError, [70]⟩, st))
        [⟨1, [[97]], 2⟩] Option.none).cell
        = some ⟨StatusCode.invalidArgument, StatusSubcode.noSub, StatusSeverity.noError, some 1⟩) := by
  constructor
  · have := (ingest_all_or_nothing_releases_transients ⟨0, []⟩ []
      (fun st args => (⟨StatusCode.ok, StatusSubcode.noSub, StatusSeverity.noError, []⟩, st ++ args))
      [⟨1, [[97]], 2⟩] Option.none
      (by intro a ha; simp [Heap.addrs] at ha)
      (fun st args => Or.inl ⟨rfl, rfl⟩)
      (by intro a ha; simp at ha; subst ha; decide)).1 rfl
    exact this
  · have := (ingest_all_or_nothing_releases_transients ⟨0, []⟩ []
      (fun st _ => (⟨StatusCode.invalidArgument, StatusSubcode.noSub, StatusSeverity.noError, [70]⟩, st))
      [⟨1, [[97]], 2⟩] Option.none
      (by intro a ha; simp [Heap.addrs] at ha)
      (fun st args => Or.inr ⟨rfl, rfl⟩)
      (by intro a ha; simp at ha; subst ha; decide)).2 rfl
    exact ⟨this.1, this.2.1, this.2.2.1⟩

/-- A `rocksdb::ColumnFamilyDescriptor` marshalled for an open call: the
copied name string and the column-family options value. -/
structure ColumnFamilyDescriptor where
  name : List Nat
  options : Nat
  deriving DecidableEq

/-- The wrapper-writing loop shared by the open calls: for ascending `i`
below the engine-returned handle count, allocate a fresh
`rocksdb_column_family_handle_t` wrapper around `handles[i]` and store its
address in the caller's output array cell `i`; the cells past the handle
count are left as they were. -/
def writeHandles : Heap → List Nat → List (Option Nat) → Heap × List (Option Nat)
  | h, [], out => (h, out)
  | h, _ :: _, [] => (h, [])
  | h, hd :: tl, _ :: rest =>
    let (a, h1) := h.alloc [hd]
    let (h2, rest2) := writeHandles h1 tl rest
    (h2, some a :: rest2)

/-- Outcome of an open bridge call: the returned store wrapper (null =
`Option.none`), the caller's column-family-handles output array after the
call, the status output cell, and the heap. -/
structure OpenResult where
  ret : Option Nat
  out : List (Option Nat)
  cell : Option rocksdb_status
  heap : Heap
  deriving DecidableEq

/-- `rocksdb_transactiondb_open_column_families_with_status`
(`src/oxrocksdb-sys/api/c.cc` lines 214-246; also `src/rocksdb-sys/api/c.cc`
lines 22-52): marshals the column-family descriptors, forwards to
`TransactionDB::Open` (outcome `(status, handles, store)` produced by
`engine`), saves the status, returns null on failure before touching the
output array, and otherwise writes one fresh wrapper per returned handle in
order and returns a fresh store wrapper. -/
def rocksdb_transactiondb_open_column_families_with_status (h : Heap)
    (cfNames : List (List Nat)) (cfOpts : List Nat)
    (engine : List ColumnFamilyDescriptor → Status × List Nat × Nat)
    (out : List (Option Nat)) (_cell : Option rocksdb_status) : OpenResult :=
  let column_families := (cfNames.zip cfOpts).map (fun p => ColumnFamilyDescriptor.mk p.1 p.2)
  let (s, handles, txn_db) := engine column_families
  let (t, h1, failed) := SaveStatus h s
  if failed then
    OpenResult.mk Option.none out (some t) h1
  else
    let (h2, out2) := writeHandles h1 handles out
    let (r, h3) := h2.alloc [txn_db]
    OpenResult.mk (some r) out2 (some t) h3

/-- `rocksdb_open_for_read_only_column_families_with_status`
(`src/oxrocksdb-sys/api/c.cc` lines 130-161): same shape, forwarding to
`DB::OpenForReadOnly`; the `error_if_wal_file_exists` flag only flows to
the engine. -/
def rocksdb_open_for_read_only_column_families_with_status (h : Heap)
    (cfNames : List (List Nat)) (cfOpts : List Nat)
    (engine : List ColumnFamilyDescriptor → Status × List Nat × Nat)
    (out : List (Option Nat)) (_cell : Option rocksdb_status) : OpenResult :=
  let column_families := (cfNames.zip cfOpts).map (fun p => ColumnFamilyDescriptor.mk p.1 p.2)
  let (s, handles, db) := engine column_families
  let (t, h1, failed) := SaveStatus h s
  if failed then
    OpenResult.mk Option.none out (some t) h1
  else
    let (h2, out2) := writeHandles h1 handles out
    let (r, h3) := h2.alloc [db]
    OpenResult.mk (some r) out2 (some t) h3

/-- `rocksdb_open_as_secondary_column_families_with_status`
(`src/oxrocksdb-sys/api/c.cc` lines 168-198): same shape, forwarding to
`DB::OpenAsSecondary`; the secondary path only flows to the engine. -/
def rocksdb_open_as_secondary_column_families_with_status (h : Heap)
    (cfNames : List (List Nat)) (cfOpts : List Nat)
    (engine : List ColumnFamilyDescriptor → Status × List Nat × Nat)
    (out : List (Option Nat)) (_cell : Option rocksdb_status) : OpenResult :=
  let column_families := (cfNames.zip cfOpts).map (fun p => ColumnFamilyDescriptor.mk p.1 p.2)
  let (s, handles, db) := engine column_families
  let (t, h1, failed) := SaveStatus h s
  if failed then
    OpenResult.mk Option.none out (some t) h1
  else
    let (h2, out2) := writeHandles h1 handles out
    let (r, h3) := h2.alloc [db]
    OpenResult.mk (some r) out2 (some t) h3

/-- The wrapper loop advances the fresh-address supply by the handle count
(when the caller array is long enough). -/
theorem writeHandles_next (h : Heap) (hs : List Nat) (out : List (Option Nat))
    (hlen : hs.length ≤ out.length) :
    (writeHandles h hs out).1.next = h.next + hs.length := by
  induction hs generalizing h out with
  | nil => simp [writeHandles]
  | cons hd tl ih =>
    cases out with
    | nil => simp at hlen
    | cons o rest =>
      simp [writeHandles, Heap.alloc]
      rw [ih ⟨h.next + 1, (h.next, [hd]) :: h.blocks⟩ rest (by simpa using hlen)]
      simp
      omega

/-- The wrapper loop replaces the first `handles.length` output cells by the
fresh wrapper addresses, in index order, and keeps the remaining cells. -/
theorem writeHandles_out (h : Heap) (hs : List Nat) (out : List (Option Nat))
    (hlen : hs.length ≤ out.length) :
    (writeHandles h hs out).2 =
      (List.range hs.length).map (fun i => some (h.next + i)) ++ out.drop hs.length := by
  induction hs generalizing h out with
  | nil => simp [writeHandles]
  | cons hd tl ih =>
    cases out with
    | nil => simp at hlen
    | cons o rest =>
      simp [writeHandles, Heap.alloc]
      rw [ih ⟨h.next + 1, (h.next, [hd]) :: h.blocks⟩ rest (by simpa using hlen)]
      simp [List.range_succ_eq_map]
      intro a _
      omega

/-- The wrapper loop does not disturb blocks below the fresh range. -/
theorem writeHandles_lookup_lt (h : Heap) (hs : List Nat) (out : List (Option Nat))
    (a : Nat) (ha : a < h.next) :
    (writeHandles h hs out).1.lookup a = h.lookup a := by
  induction hs generalizing h out with
  | nil => simp [writeHandles]
  | cons hd tl ih =>
    cases out with
    | nil => simp [writeHandles]
    | cons o rest =>
      simp [writeHandles, Heap.alloc]
      rw [ih ⟨h.next + 1, (h.next, [hd]) :: h.blocks⟩ rest (Nat.lt_succ_of_lt ha)]
      simp only [Heap.lookup]
      rw [List.find?_cons_of_neg _ (by simp; omega)]

/-- After the wrapper loop, output index `i` holds a block containing
exactly the engine handle `handles[i]`. -/
theorem writeHandles_lookup (h : Heap) (hs : List Nat) (out : List (Option Nat))
    (hlen : hs.length ≤ out.length) :
    ∀ i (hi : i < hs.length),
      (writeHandles h hs out).1.lookup (h.next + i) = some [hs.get ⟨i, hi⟩] := by
  induction hs generalizing h out with
  | nil => intro i hi; simp at hi
  | cons hd tl ih =>
    cases out with
    | nil => simp at hlen
    | cons o rest =>
      intro i hi
      cases i with
      | zero =>
        show (writeHandles ⟨h.next + 1, (h.next, [hd]) :: h.blocks⟩ tl rest).1.lookup (h.next + 0)
          = some [hd]
        rw [writeHandles_lookup_lt _ _ _ _ (by simp)]
        simp [Heap.lookup]
      | succ j =>
        have hj : j < tl.length := by simpa using hi
        have := ih ⟨h.next + 1, (h.next, [hd]) :: h.blocks⟩ rest (by simpa using hlen) j hj
        simp at this
        show (writeHandles ⟨h.next + 1, (h.next, [hd]) :: h.blocks⟩ tl rest).1.lookup (h.next + (j + 1))
          = some [(hd :: tl).get ⟨j + 1, hi⟩]
        rw [show h.next + (j + 1) = h.next + 1 + j by omega]
        simpa using this

/-- C9: for the three open-with-column-families calls (transactional,
read-only, secondary), engine failure returns null and writes nothing to
the caller's column-family-handles output array (only the status is
populated, with a non-ok code); engine success writes exactly one freshly
allocated wrapper per engine-returned handle, holding that handle and
placed at the handle's index, leaves the remaining cells untouched, and
returns a freshly allocated store wrapper — no partially initialized
handle set is ever exposed. -/
theorem open_column_families_contract (h : Heap) (cfNames : List (List Nat))
    (cfOpts : List Nat)
    (engine : List ColumnFamilyDescriptor → Status × List Nat × Nat)
    (out : List (Option Nat)) (cell : Option rocksdb_status)
    (s : Status) (hs : List Nat) (dbp : Nat)
    (hwf : Heap.wf h)
    (heng : engine ((cfNames.zip cfOpts).map (fun p => ColumnFamilyDescriptor.mk p.1 p.2)) = (s, hs, dbp))
    (hlen : hs.length ≤ out.length) :
    ((s.ok = false →
      (rocksdb_transactiondb_open_column_families_with_status h cfNames cfOpts engine out cell).ret = Option.none ∧
      (rocksdb_transactiondb_open_column_families_with_status h cfNames cfOpts engine out cell).out = out ∧
      (rocksdb_transactiondb_open_column_families_with_status h cfNames cfOpts engine out cell).cell = some ⟨s.code, s.subcode, s.severity, some h.next⟩ ∧
      (rocksdb_transactiondb_open_column_families_with_status h cfNames cfOpts engine out cell).heap.blocks = (h.next, s.msg ++ [0]) :: h.blocks ∧
      s.code ≠ StatusCode.ok) ∧
    (s.ok = true →
      (rocksdb_transactiondb_open_column_families_with_status h cfNames cfOpts engine out cell).ret = some (h.next + hs.length) ∧
      (rocksdb_transactiondb_open_column_families_with_status h cfNames cfOpts engine out cell).out = (List.range hs.length).map (fun i => some (h.next + i)) ++ out.drop hs.length ∧
      (rocksdb_transactiondb_open_column_families_with_status h cfNames cfOpts engine out cell).cell = some ⟨s.code, s.subcode, s.severity, Option.none⟩ ∧
      (∀ i (hi : i < hs.length),
        (rocksdb_transactiondb_open_column_families_with_status h cfNames cfOpts engine out cell).heap.lookup (h.next + i) = some [hs.get ⟨i, hi⟩] ∧
        h.next + i ∉ h.addrs) ∧
      (rocksdb_transactiondb_open_column_families_with_status h cfNames cfOpts engine out cell).heap.lookup (h.next + hs.length) = some [dbp] ∧
      h.next + hs.length ∉ h.addrs)) ∧
    ((s.ok = false →
      (rocksdb_open_for_read_only_column_families_with_status h cfNames cfOpts engine out cell).ret = Option.none ∧
      (rocksdb_open_for_read_only_column_families_with_status h cfNames cfOpts engine out cell).out = out ∧
      (rocksdb_open_for_read_only_column_families_with_status h cfNames cfOpts engine out cell).cell = some ⟨s.code, s.subcode, s.severity, some h.next⟩ ∧
      (rocksdb_open_for_read_only_column_families_with_status h cfNames cfOpts engine out cell).heap.blocks = (h.next, s.msg ++ [0]) :: h.blocks ∧
      s.code ≠ StatusCode.ok) ∧
    (s.ok = true →
      (rocksdb_open_for_read_only_column_families_with_status h cfNames cfOpts engine out cell).ret = some (h.next + hs.length) ∧
      (rocksdb_open_for_read_only_column_families_with_status h cfNames cfOpts engine out cell).out = (List.range hs.length).map (fun i => some (h.next + i)) ++ out.drop hs.length ∧
      (rocksdb_open_for_read_only_column_families_with_status h cfNames cfOpts engine out cell).cell = some ⟨s.code, s.subcode, s.severity, Option.none⟩ ∧
      (∀ i (hi : i < hs.length),
        (rocksdb_open_for_read_only_column_families_with_status h cfNames cfOpts engine out cell).heap.lookup (h.next + i) = some [hs.get ⟨i, hi⟩] ∧
        h.next + i ∉ h.addrs) ∧
      (rocksdb_open_for_read_only_column_families_with_status h cfNames cfOpts engine out cell).heap.lookup (h.next + hs.length) = some [dbp] ∧
      h.next + hs.length ∉ h.addrs)) ∧
    ((s.ok = false →
      (rocksdb_open_as_secondary_column_families_with_status h cfNames cfOpts engine out cell).ret = Option.none ∧
      (rocksdb_open_as_secondary_column_families_with_status h cfNames cfOpts engine out cell).out = out ∧
      (rocksdb_open_as_secondary_column_families_with_status h cfNames cfOpts engine out cell).cell = some ⟨s.code, s.subcode, s.severity, some h.next⟩ ∧
      (rocksdb_open_as_secondary_column_families_with_status h cfNames cfOpts engine out cell).heap.blocks = (h.next, s.msg ++ [0]) :: h.blocks ∧
      s.code ≠ StatusCode.ok) ∧
    (s.ok = true →
      (rocksdb_open_as_secondary_column_families_with_status h cfNames cfOpts engine out cell).ret = some (h.next + hs.length) ∧
      (rocksdb_open_as_secondary_column_families_with_status h cfNames cfOpts engine out cell).out = (List.range hs.length).map (fun i => some (h.next + i)) ++ out.drop hs.length ∧
      (rocksdb_open_as_secondary_column_families_with_status h cfNames cfOpts engine out cell).cell = some ⟨s.code, s.subcode, s.severity, Option.none⟩ ∧
      (∀ i (hi : i < hs.length),
        (rocksdb_open_as_secondary_column_families_with_status h cfNames cfOpts engine out cell).heap.lookup (h.next + i) = some [hs.get ⟨i, hi⟩] ∧
        h.next + i ∉ h.addrs) ∧
      (rocksdb_open_as_secondary_column_families_with_status h cfNames cfOpts engine out cell).heap.lookup (h.next + hs.length) = some [dbp] ∧
      h.next + hs.length ∉ h.addrs)) := by
  have main :
    ((s.ok = false →
      (rocksdb_transactiondb_open_column_families_with_status h cfNames cfOpts engine out cell).ret = Option.none ∧
      (rocksdb_transactiondb_open_column_families_with_status h cfNames cfOpts engine out cell).out = out ∧
      (rocksdb_transactiondb_open_column_families_with_status h cfNames cfOpts engine out cell).cell = some ⟨s.code, s.subcode, s.severity, some h.next⟩ ∧
      (rocksdb_transactiondb_open_column_families_with_status h cfNames cfOpts engine out cell).heap.blocks = (h.next, s.msg ++ [0]) :: h.blocks ∧
      s.code ≠ StatusCode.ok) ∧
    (s.ok = true →
      (rocksdb_transactiondb_open_column_families_with_status h cfNames cfOpts engine out cell).ret = some (h.next + hs.length) ∧
      (rocksdb_transactiondb_open_column_families_with_status h cfNames cfOpts engine out cell).out = (List.range hs.length).map (fun i => some (h.next + i)) ++ out.drop hs.length ∧
      (rocksdb_transactiondb_open_column_families_with_status h cfNames cfOpts engine out cell).cell = some ⟨s.code, s.subcode, s.severity, Option.none⟩ ∧
      (∀ i (hi : i < hs.length),
        (rocksdb_transactiondb_open_column_families_with_status h cfNames cfOpts engine out cell).heap.lookup (h.next + i) = some [hs.get ⟨i, hi⟩] ∧
        h.next + i ∉ h.addrs) ∧
      (rocksdb_transactiondb_open_column_families_with_status h cfNames cfOpts engine out cell).heap.lookup (h.next + hs.length) = some [dbp] ∧
      h.next + hs.length ∉ h.addrs)) := by
    constructor
    · intro hok
      refine ⟨?_, ?_, ?_, ?_, ?_⟩
      · simp [rocksdb_transactiondb_open_column_families_with_status, heng, SaveStatus, Heap.alloc, hok]
      · simp [rocksdb_transactiondb_open_column_families_with_status, heng, SaveStatus, Heap.alloc, hok]
      · simp [rocksdb_transactiondb_open_column_families_with_status, heng, SaveStatus, Heap.alloc, hok]
      · simp [rocksdb_transactiondb_open_column_families_with_status, heng, SaveStatus, Heap.alloc, hok]
      · intro hc
        simp [Status.ok, hc] at hok
    · intro hok
      have hheapEq : (rocksdb_transactiondb_open_column_families_with_status h cfNames cfOpts engine out cell).heap
          = ⟨(writeHandles h hs out).1.next + 1,
             ((writeHandles h hs out).1.next, [dbp]) :: (writeHandles h hs out).1.blocks⟩ := by
        simp [rocksdb_transactiondb_open_column_families_with_status, heng, SaveStatus, Heap.alloc, hok]
      have hnexteq : (writeHandles h hs out).1.next = h.next + hs.length := writeHandles_next _ _ _ hlen
      refine ⟨?_, ?_, ?_, ?_, ?_, ?_⟩
      · simp [rocksdb_transactiondb_open_column_families_with_status, heng, SaveStatus, Heap.alloc, hok, hnexteq]
      · simp [rocksdb_transactiondb_open_column_families_with_status, heng, SaveStatus, Heap.alloc, hok]
        rw [writeHandles_out _ _ _ hlen]
      · simp [rocksdb_transactiondb_open_column_families_with_status, heng, SaveStatus, Heap.alloc, hok]
      · intro i hi
        constructor
        · rw [hheapEq]
          simp only [Heap.lookup]
          rw [List.find?_cons_of_neg _ (by simp [hnexteq]; omega)]
          have := writeHandles_lookup h hs out hlen i hi
          simpa only [Heap.lookup] using this
        · intro hmem
          have := hwf _ hmem
          omega
      · rw [hheapEq]
        simp only [Heap.lookup]
        rw [List.find?_cons_of_pos _ (by simp [hnexteq])]
        simp [hnexteq]
      · intro hmem
        have := hwf _ hmem
        omega
  exact ⟨main, main, main⟩

/-- Concrete instance of the open contract: a two-column-family open that
succeeds (handles 5 and 6, store 9) fills both output cells with fresh
wrappers in order for all three open calls, and one that fails with an IO
error returns null and leaves the output array untouched. -/
theorem open_column_families_contract_witness :
    (rocksdb_transactiondb_open_column_families_with_status ⟨0, []⟩ [[99], [100]] [3, 4]
        (fun _ => (⟨StatusCode.ok, StatusSubcode.noSub, StatusSeverity.noError, []⟩, [5, 6], 9))
        [Option.none, Option.none] Option.none).ret = some 2 ∧
    (rocksdb_transactiondb_open_column_families_with_status ⟨0, []⟩ [[99], [100]] [3, 4]
        (fun _ => (⟨StatusCode.ok, StatusSubcode.noSub, StatusSeverity.noError, []⟩, [5, 6], 9))
        [Option.none, Option.none] Option.none).out = [some 0, some 1] ∧
    (rocksdb_transactiondb_open_column_families_with_status ⟨0, []⟩ [[99], [100]] [3, 4]
        (fun _ => (⟨StatusCode.ok, StatusSubcode.noSub, StatusSeverity.noError, []⟩, [5, 6], 9))
        [Option.none, Option.none] Option.none).heap.lookup 0 = some [5] ∧
    (rocksdb_transactiondb_open_column_families_with_status ⟨0, []⟩ [[99], [100]] [3, 4]
        (fun _ => (⟨StatusCode.ok, StatusSubcode.noSub, StatusSeverity.noError, []⟩, [5, 6], 9))
        [Option.none, Option.none] Option.none).heap.lookup 2 = some [9] ∧
    (rocksdb_open_for_read_only_column_families_with_status ⟨0, []⟩ [[99], [100]] [3, 4]
        (fun _ => (⟨StatusCode.ok, StatusSubcode.noSub, StatusSeverity.noError, []⟩, [5, 6], 9))
        [Option.none, Option.none] Option.none).ret = some 2 ∧
    (rocksdb_open_as_secondary_column_families_with_status ⟨0, []⟩ [[99], [100]] [3, 4]
        (fun _ => (⟨StatusCode.ok, StatusSubcode.noSub, StatusSeverity.noError, []⟩, [5, 6], 9))
        [Option.none, Option.none] Option.none).ret = some 2 ∧
    (rocksdb_transactiondb_open_column_families_with_status ⟨0, []⟩ [[99], [100]] [3, 4]
        (fun _ => (⟨StatusCode.ioError, StatusSubcode.noSub, StatusSeverity.noError, [67]⟩, [], 0))
        [Option.none, Option.none] Option.none).ret = Option.none ∧
    (rocksdb_transactiondb_open_column_families_with_status ⟨0, []⟩ [[99], [100]] [3, 4]
        (fun _ => (⟨StatusCode.ioError, StatusSubcode.noSub, StatusSeverity.noError, [67]⟩, [], 0))
        [Option.none, Option.none] Option.none).out = [Option.none, Option.none] := by
  have okapp := open_column_families_contract ⟨0, []⟩ [[99], [100]] [3, 4]
    (fun _ => (⟨StatusCode.ok, StatusSubcode.noSub, StatusSeverity.noError, []⟩, [5, 6], 9))
    [Option.none, Option.none] Option.none
    ⟨StatusCode.ok, StatusSubcode.noSub, StatusSeverity.noError, []⟩ [5, 6] 9
    (by intro a ha; simp [Heap.addrs] at ha) rfl (by decide)
  have failapp := open_column_families_contract ⟨0, []⟩ [[99], [100]] [3, 4]
    (fun _ => (⟨StatusCode.ioError, StatusSubcode.noSub, StatusSeverity.noError, [67]⟩, [], 0))
    [Option.none, Option.none] Option.none
    ⟨StatusCode.ioError, StatusSubcode.noSub, StatusSeverity.noError, [67]⟩ [] 0
    (by intro a ha; simp [Heap.addrs] at ha) rfl (by decide)
  refine ⟨(okapp.1.2 rfl).1, ?_, ((okapp.1.2 rfl).2.2.2.1 0 (by decide)).1,
    (okapp.1.2 rfl).2.2.2.2.1, (okapp.2.1.2 rfl).1, (okapp.2.2.2 rfl).1,
    (failapp.1.1 rfl).1, (failapp.1.1 rfl).2.1⟩
  · exact (okapp.1.2 rfl).2.1

/-- Events of a checkpoint-creation bridge call, in order: constructing the
engine checkpoint object, writing the checkpoint to the directory, saving
the status, destroying the checkpoint object. -/
inductive CkEv
  | create
  | write
  | save
  | destroy
  deriving DecidableEq

/-- `rocksdb_create_checkpoint_with_status` (`src/oxrocksdb-sys/api/c.cc`
lines 200-212): `Checkpoint::Create` (outcome `c`); on failure save that
status and return without writing; on success save the outcome `w` of
`checkpoint->CreateCheckpoint(dir)` and `delete checkpoint` afterwards,
whatever `w` is. -/
def rocksdb_create_checkpoint_with_status (h : Heap) (c : Status) (w : Status)
    (_cell : Option rocksdb_status) : Option rocksdb_status × Heap × List CkEv :=
  if ! c.ok then
    let (t, h1, _) := SaveStatus h c
    (some t, h1, [CkEv.create, CkEv.save])
  else
    let (t, h1, _) := SaveStatus h w
    (some t, h1, [CkEv.create, CkEv.write, CkEv.save, CkEv.destroy])

/-- `rocksdb_transactiondb_create_checkpoint_with_status`
(`src/oxrocksdb-sys/api/c.cc` lines 316-328; also `src/rocksdb-sys/api/c.cc`
lines 119-130): same shape on a transactional store. -/
def rocksdb_transactiondb_create_checkpoint_with_status (h : Heap) (c : Status)
    (w : Status) (_cell : Option rocksdb_status) :
    Option rocksdb_status × Heap × List CkEv :=
  if ! c.ok then
    let (t, h1, _) := SaveStatus h c
    (some t, h1, [CkEv.create, CkEv.save])
  else
    let (t, h1, _) := SaveStatus h w
    (some t, h1, [CkEv.create, CkEv.write, CkEv.save, CkEv.destroy])

/-- C10: for both checkpoint-creation calls, a failed construction of the
engine checkpoint object stores exactly that failure's status and never
attempts the checkpoint write (and there is no object to destroy); a
successful construction stores exactly the write outcome — whatever it is —
and destroys the temporary checkpoint object whether the write succeeded or
failed. -/
theorem checkpoint_contract (h : Heap) (c w : Status)
    (cell : Option rocksdb_status) :
    ((c.ok = false →
      (rocksdb_create_checkpoint_with_status h c w cell).1 = some (savedRecord h c) ∧
      (rocksdb_create_checkpoint_with_status h c w cell).2.2 = [CkEv.create, CkEv.save] ∧
      CkEv.write ∉ (rocksdb_create_checkpoint_with_status h c w cell).2.2) ∧
    (c.ok = true →
      (rocksdb_create_checkpoint_with_status h c w cell).1 = some (savedRecord h w) ∧
      (rocksdb_create_checkpoint_with_status h c w cell).2.2 =
        [CkEv.create, CkEv.write, CkEv.save, CkEv.destroy] ∧
      CkEv.destroy ∈ (rocksdb_create_checkpoint_with_status h c w cell).2.2)) ∧
    ((c.ok = false →
      (rocksdb_transactiondb_create_checkpoint_with_status h c w cell).1 = some (savedRecord h c) ∧
      (rocksdb_transactiondb_create_checkpoint_with_status h c w cell).2.2 = [CkEv.create, CkEv.save] ∧
      CkEv.write ∉ (rocksdb_transactiondb_create_checkpoint_with_status h c w cell).2.2) ∧
    (c.ok = true →
      (rocksdb_transactiondb_create_checkpoint_with_status h c w cell).1 = some (savedRecord h w) ∧
      (rocksdb_transactiondb_create_checkpoint_with_status h c w cell).2.2 =
        [CkEv.create, CkEv.write, CkEv.save, CkEv.destroy] ∧
      CkEv.destroy ∈ (rocksdb_transactiondb_create_checkpoint_with_status h c w cell).2.2)) := by
  have main : (c.ok = false →
      (rocksdb_create_checkpoint_with_status h c w cell).1 = some (savedRecord h c) ∧
      (rocksdb_create_checkpoint_with_status h c w cell).2.2 = [CkEv.create, CkEv.save] ∧
      CkEv.write ∉ (rocksdb_create_checkpoint_with_status h c w cell).2.2) ∧
    (c.ok = true →
      (rocksdb_create_checkpoint_with_status h c w cell).1 = some (savedRecord h w) ∧
      (rocksdb_create_checkpoint_with_status h c w cell).2.2 =
        [CkEv.create, CkEv.write, CkEv.save, CkEv.destroy] ∧
      CkEv.destroy ∈ (rocksdb_create_checkpoint_with_status h c w cell).2.2) := by
    constructor
    · intro hok
      refine ⟨?_, ?_, ?_⟩ <;>
        simp [rocksdb_create_checkpoint_with_status, savedRecord, hok]
    · intro hok
      refine ⟨?_, ?_, ?_⟩ <;>
        simp [rocksdb_create_checkpoint_with_status, savedRecord, hok]
  exact ⟨main, main⟩

/-- Concrete instance of the checkpoint contract: a failed construction
(IO error) stores that status without writing; a successful construction
followed by a failed write stores the write's status and still destroys
the checkpoint object. -/
theorem checkpoint_contract_witness :
    ((rocksdb_create_checkpoint_with_status ⟨0, []⟩
        ⟨StatusCode.ioError, StatusSubcode.noSub, StatusSeverity.noError, [67]⟩
        ⟨StatusCode.ok, StatusSubcode.noSub, StatusSeverity.noError, []⟩ Option.none).1 =
      some ⟨StatusCode.ioError, StatusSubcode.noSub, StatusSeverity.noError, some 0⟩ ∧
     (rocksdb_create_checkpoint_with_status ⟨0, []⟩
        ⟨StatusCode.ioError, StatusSubcode.noSub, StatusSeverity.noError, [67]⟩
        ⟨StatusCode.ok, StatusSubcode.noSub, StatusSeverity.noError, []⟩ Option.none).2.2 =
      [CkEv.create, CkEv.save]) ∧
    ((rocksdb_transactiondb_create_checkpoint_with_status ⟨0, []⟩
        ⟨StatusCode.ok, StatusSubcode.noSub, StatusSeverity.noError, []⟩
        ⟨StatusCode.ioError, StatusSubcode.noSpace, StatusSeverity.hardError, [68]⟩ Option.none).1 =
      some ⟨StatusCode.ioError, StatusSubcode.noSpace, StatusSeverity.hardError, some 0⟩ ∧
     CkEv.destroy ∈ (rocksdb_transactiondb_create_checkpoint_with_status ⟨0, []⟩
        ⟨StatusCode.ok, StatusSubcode.noSub, StatusSeverity.noError, []⟩
        ⟨StatusCode.ioError, StatusSubcode.noSpace, StatusSeverity.hardError, [68]⟩ Option.none).2.2) := by
  have app1 := (checkpoint_contract ⟨0, []⟩
    ⟨StatusCode.ioError, StatusSubcode.noSub, StatusSeverity.noError, [67]⟩
    ⟨StatusCode.ok, StatusSubcode.noSub, StatusSeverity.noError, []⟩ Option.none).1.1 rfl
  have app2 := (checkpoint_contract ⟨0, []⟩
    ⟨StatusCode.ok, StatusSubcode.noSub, StatusSeverity.noError, []⟩
    ⟨StatusCode.ioError, StatusSubcode.noSpace, StatusSeverity.hardError, [68]⟩ Option.none).2.2 rfl
  exact ⟨⟨app1.1, app1.2.1⟩, ⟨app2.1, app2.2.2⟩⟩

/-- Key-value view of one layer (the overlay's buffered writes, or the
committed base store) under the call's options and column family. -/
def lookupKV : List (List Nat × List Nat) → List Nat → Option (List Nat)
  | [], _ => Option.none
  | p :: rest, k => if p.1 = k then some p.2 else lookupKV rest k

/-- Modelled from the spec: `getFromBatchAndDb` of the write-batch overlay
bridge (spec section 4.5) — its body, the engine-side
`write_batch_with_index` lookup reached through the bundled C layer, is not
among the bridge source files.  Per the spec it looks the key up in the
overlay first, falls back to the committed store, reports not-found only
when the key is absent from both, sets no error on any of these paths, and
returns a pinned buffer carrying the value of whichever layer held it. -/
def getFromBatchAndDb (overlay base : List (List Nat × List Nat))
    (key : List Nat) (cell : Option rocksdb_status) :
    Option (List Nat) × Option rocksdb_status :=
  match lookupKV overlay key with
  | some v => (some v, cell)
  | Option.none =>
    match lookupKV base key with
    | some v => (some v, cell)
    | Option.none => (Option.none, cell)

/-- C8: `getFromBatchAndDb` returns the overlay's value whenever the
overlay holds the key (in particular when both layers hold it — the
precedence rule), returns the base store's value when only the base holds
it, and returns not-found with the status output untouched when the key is
absent from both layers. -/
theorem getFromBatchAndDb_overlay_precedence
    (overlay base : List (List Nat × List Nat)) (key : List Nat)
    (cell : Option rocksdb_status) :
    (∀ v, lookupKV overlay key = some v →
      getFromBatchAndDb overlay base key cell = (some v, cell)) ∧
    (lookupKV overlay key = Option.none → ∀ v, lookupKV base key = some v →
      getFromBatchAndDb overlay base key cell = (some v, cell)) ∧
    (lookupKV overlay key = Option.none → lookupKV base key = Option.none →
      getFromBatchAndDb overlay base key cell = (Option.none, cell)) := by
  refine ⟨?_, ?_, ?_⟩
  · intro v hv
    simp [getFromBatchAndDb, hv]
  · intro h0 v hv
    simp [getFromBatchAndDb, h0, hv]
  · intro h0 h1
    simp [getFromBatchAndDb, h0, h1]

/-- Concrete instance of the overlay read: key 1 is in both layers (the
overlay value 10 wins over the base value 20), key 2 only in the base
(base value 30 returned), key 3 in neither (not-found, status cell left
unwritten). -/
theorem getFromBatchAndDb_overlay_precedence_witness :
    getFromBatchAndDb [([1], [10])] [([1], [20]), ([2], [30])] [1] Option.none
      = (some [10], Option.none) ∧
    getFromBatchAndDb [([1], [10])] [([1], [20]), ([2], [30])] [2] Option.none
      = (some [30], Option.none) ∧
    getFromBatchAndDb [([1], [10])] [([1], [20]), ([2], [30])] [3] Option.none
      = (Option.none, Option.none) :=
  ⟨(getFromBatchAndDb_overlay_precedence [([1], [10])] [([1], [20]), ([2], [30])]
      [1] Option.none).1 [10] rfl,
   (getFromBatchAndDb_overlay_precedence [([1], [10])] [([1], [20]), ([2], [30])]
      [2] Option.none).2.1 rfl [30] rfl,
   (getFromBatchAndDb_overlay_precedence [([1], [10])] [([1], [20]), ([2], [30])]
      [3] Option.none).2.2 rfl rfl⟩
